import Mathlib

/-!
A verification development for the batch text-rewriting scripts of this
repository (comprehensive_fix.py, fix_ts_errors.py, final_safe_fix.py,
ultra_targeted_fix.py, final_push.py).

File contents are modelled as `List Char`.  Python `re.sub` is modelled by a
left-to-right scanner `subAll` over a per-pattern matcher: at every position
the matcher tries the concrete pattern and, on success, returns the
replacement text together with the input remaining after the matched span;
the scanner emits the replacement and resumes after the span, exactly as
`re.sub` does for the non-overlapping, left-to-right semantics of Python.
Each matcher below is hand-derived from one concrete pattern of the source
and implements that pattern's greedy/backtracking behaviour (restricted to
the ASCII fragment of the Python character classes).  Every matcher consumes
at least one character whenever it succeeds.
-/

/-- ASCII fragment of the Python regex class `\w` (letters, digits, underscore). -/
def isWordChar (c : Char) : Bool := c.isAlphanum || c = '_'

/-- ASCII fragment of the Python regex class `\s` (also the class stripped by
Python `str.strip`): space, tab, newline, carriage return, vertical tab, form feed. -/
def isSpaceChar (c : Char) : Bool :=
  c = ' ' || c = '\t' || c = '\n' || c = '\r' || c = Char.ofNat 11 || c = Char.ofNat 12

/-- The single-quote character (used in several replacement templates). -/
def squote : Char := Char.ofNat 39

/-- Consume an exact literal from the front of the input, returning the rest. -/
def lit : List Char → List Char → Option (List Char)
  | [], s => some s
  | _ :: _, [] => none
  | l :: ls, c :: cs => if c = l then lit ls cs else none

/-- Greedy `p*`: the maximal run of characters satisfying `p`, and the rest. -/
def munch (p : Char → Bool) : List Char → List Char × List Char
  | [] => ([], [])
  | c :: cs =>
    if p c then
      let r := munch p cs
      (c :: r.1, r.2)
    else ([], c :: cs)

/-- Greedy `p+`: the maximal nonempty run of characters satisfying `p`. -/
def munch1 (p : Char → Bool) (s : List Char) : Option (List Char × List Char) :=
  match s with
  | [] => none
  | c :: cs =>
    if p c then
      let r := munch p cs
      some (c :: r.1, r.2)
    else none

/-- Split a list at the last occurrence of `t`:
`splitAtLast t s = some (a, b)` exactly when `s = a ++ t :: b` with `b` free of
`t`.  This implements the backtracking of a greedy class-run that must leave a
final occurrence of `t` for the next piece of the pattern. -/
def splitAtLast (t : Char) : List Char → Option (List Char × List Char)
  | [] => none
  | c :: cs =>
    match splitAtLast t cs with
    | some (a, b) => some (c :: a, b)
    | none => if c = t then some ([], cs) else none

/-- A matcher tries its pattern at the current position of the input; on
success it returns the replacement text for the matched span and the input
remaining after the span. -/
abbrev Matcher : Type := List Char → Option (List Char × List Char)

/-- Fuelled scanner giving the semantics of Python `re.sub`: at each position
try the pattern; on a match emit the replacement and continue after the
matched span, otherwise emit the current character and advance by one. -/
def subAllF (m : Matcher) : Nat → List Char → List Char
  | _, [] => []
  | 0, s => s
  | fuel + 1, c :: rest =>
    match m (c :: rest) with
    | some (repl, after) => repl ++ subAllF m fuel after
    | none => c :: subAllF m fuel rest

/-- Python `re.sub` for the pattern embodied by `m`.  Length-many units of
fuel always suffice because every matcher of this development consumes at
least one character per match. -/
def subAll (m : Matcher) (s : List Char) : List Char := subAllF m s.length s

/-- Python `re.search` viewed as a Boolean: the pattern matches at some
position of `s`. -/
def matchesSomewhere (m : Matcher) : List Char → Bool
  | [] => (m []).isSome
  | c :: rest => (m (c :: rest)).isSome || matchesSomewhere m rest

theorem subAllF_id_of_no_match (m : Matcher) :
    ∀ (fuel : Nat) (s : List Char), matchesSomewhere m s = false → subAllF m fuel s = s := by
  intro fuel
  induction fuel with
  | zero => intro s _; cases s <;> rfl
  | succ n ih =>
    intro s h
    cases s with
    | nil => rfl
    | cons c rest =>
      have h' : (m (c :: rest)).isSome = false ∧ matchesSomewhere m rest = false := by
        simpa [matchesSomewhere] using h
      cases hm : m (c :: rest) with
      | some v => rw [hm] at h'; simp at h'
      | none => simp [subAllF, hm, ih rest h'.2]

theorem subAll_id_of_no_match (m : Matcher) (s : List Char)
    (h : matchesSomewhere m s = false) : subAll m s = s :=
  subAllF_id_of_no_match m s.length s h

/-- Result of one per-file processing step of a script with a catch-all
`try` block: the returned changed flag, the content written (when a write
happened), and the reported error, if any, as the pair (file path, message). -/
structure PFResult where
  changed : Bool
  written : Option (List Char)
  reported : Option (List Char × List Char)
deriving DecidableEq, Repr

/-- One discovered file as the per-script main loop sees it: its path, the
outcome of reading it, and the outcome a write attempt on it would have. -/
structure FileM where
  path : List Char
  readRes : Except (List Char) (List Char)
  writeRes : Except (List Char) Unit

/-- The shared shape of each script's discovery loop: fold the per-file
processor over the discovered files, counting files reported changed and
collecting the writes performed. -/
def runFiles
    (pf : List Char → Except (List Char) (List Char) → Except (List Char) Unit → PFResult) :
    Nat × List (List Char × List Char) → List FileM → Nat × List (List Char × List Char)
  | acc, [] => acc
  | acc, f :: rest =>
    let r := pf f.path f.readRes f.writeRes
    runFiles pf
      (acc.1 + (if r.changed then 1 else 0),
       acc.2 ++ (r.written.map fun c => (f.path, c)).toList) rest

/-- Matcher for the pattern family `BASE\[(\d+)\]\.` with replacement
`BASE[\1]?.` (the optional-chaining rules shared by several scripts). -/
def indexedAccessM (base : List Char) : Matcher := fun s => do
  let s ← lit (base ++ ("[".data)) s
  let (d, s) ← munch1 Char.isDigit s
  let s ← lit ("].".data) s
  some (base ++ ("[".data) ++ d ++ ("]?.".data), s)

/-- Matcher for the pattern family `\.OBJ\.PROP\b` with replacement
`.OBJ['PROP']` (the index-signature rules of final_safe_fix and final_push,
where PROP ends in a word character so the trailing `\b` requires the next
character to be absent or a non-word character). -/
def propAccessM (obj prop : List Char) : Matcher := fun s => do
  let s ← lit ((".".data) ++ obj ++ (".".data) ++ prop) s
  let repl := (".".data) ++ obj ++ ("[".data) ++ [squote] ++ prop ++ [squote] ++ ("]".data)
  match s with
  | [] => some (repl, [])
  | c :: cs => if isWordChar c then none else some (repl, c :: cs)

namespace ComprehensiveFix

/-- Matcher for rule 1 of comprehensive_fix.fix_content,
`const _\w+ = [^;]+;\n\s*\n`, replacement a single newline.  The tail
`\s*\n` greedily eats whitespace and then backtracks so that the final
consumed character is the last newline of the whitespace run. -/
def rule1M : Matcher := fun s => do
  let s ← lit ("const _".data) s
  let (_, s) ← munch1 isWordChar s
  let s ← lit (" = ".data) s
  let (_, s) ← munch1 (fun c => c != ';') s
  let s ← lit (";\n".data) s
  let (run, rest) := munch isSpaceChar s
  let (_, after) ← splitAtLast '\n' run
  some (("\n".data), after ++ rest)

/-- Matcher for rule 2 of comprehensive_fix.fix_content,
`(\w+)\[(\d+)\]\.(\w+)`, replacement template `\1[\2]?.\3`. -/
def rule2M : Matcher := fun s => do
  let (w, s) ← munch1 isWordChar s
  let s ← lit ("[".data) s
  let (d, s) ← munch1 Char.isDigit s
  let s ← lit ("].".data) s
  let (r, s) ← munch1 isWordChar s
  some (w ++ ("[".data) ++ d ++ ("]?.".data) ++ r, s)

/-- Matcher for rule 4 of comprehensive_fix.fix_content,
`\(([^)]*)\)\s*=>\s*(\w+)\+\+`, with its block-body replacement template. -/
def rule4M : Matcher := fun s => do
  let s ← lit ("(".data) s
  let (g1, s) := munch (fun c => c != ')') s
  let s ← lit (")".data) s
  let (_, s) := munch isSpaceChar s
  let s ← lit ("=>".data) s
  let (_, s) := munch isSpaceChar s
  let (g2, s) ← munch1 isWordChar s
  let s ← lit ("++".data) s
  some (("(".data) ++ g1 ++ (") => \x7b\n        ".data) ++ g2 ++ ("++;\n      \x7d".data), s)

/-- Matcher for rule 5 of comprehensive_fix.fix_content,
`(as\s+\{\s*props:\s*\{[^}]+\}\s*;\s*\})`, replacement `as unknown \1`
(group 1 is the whole match). -/
def rule5M : Matcher := fun s0 => do
  let s ← lit ("as".data) s0
  let (_, s) ← munch1 isSpaceChar s
  let s ← lit ("\x7b".data) s
  let (_, s) := munch isSpaceChar s
  let s ← lit ("props:".data) s
  let (_, s) := munch isSpaceChar s
  let s ← lit ("\x7b".data) s
  let (_, s) ← munch1 (fun c => c != '\x7d') s
  let s ← lit ("\x7d".data) s
  let (_, s) := munch isSpaceChar s
  let s ← lit (";".data) s
  let (_, s) := munch isSpaceChar s
  let s ← lit ("\x7d".data) s
  let whole := s0.take (s0.length - s.length)
  some (("as unknown ".data) ++ whole, s)

/-- Matcher for rule 6 of comprehensive_fix.fix_content,
`\.find\([^)]+\)\)`, whose replacement is the fixed text `.find(...)!)`
(it discards the matched predicate). -/
def rule6M : Matcher := fun s => do
  let s ← lit (".find(".data) s
  let (_, s) ← munch1 (fun c => c != ')') s
  let s ← lit ("))".data) s
  some ((".find(...)!)".data), s)

/-- Model of comprehensive_fix.fix_content: the five active re.sub rules
applied in source order to the whole content; the filepath parameter is
received and never used, as in the source. -/
def fix_content (content : List Char) (filepath : List Char) : List Char :=
  let c := subAll rule1M content
  let c := subAll rule2M c
  let c := subAll rule4M c
  let c := subAll rule5M c
  subAll rule6M c

/-- Model of comprehensive_fix.process_file: read, transform, write back iff
the content changed, with the catch-all `except` modelled by explicit read
and write outcomes; a caught error is reported as (path, message) and the
function returns False. -/
def process_file (filepath : List Char) (readRes : Except (List Char) (List Char))
    (writeRes : Except (List Char) Unit) : PFResult :=
  match readRes with
  | .error e => ⟨false, none, some (filepath, e)⟩
  | .ok content =>
    let c := fix_content content filepath
    if c = content then ⟨false, none, none⟩
    else
      match writeRes with
      | .ok _ => ⟨true, some c, none⟩
      | .error e => ⟨false, none, some (filepath, e)⟩

/-- A root directory as comprehensive_fix.main sees it: the `exists()` flag
and the files discovered by each of the three rglob passes. -/
structure DirModel where
  exists_ : Bool
  testFiles : List FileM
  specFiles : List FileM
  storyFiles : List FileM

/-- The directory loop of comprehensive_fix.main, threading the
(files_fixed, writes) accumulator. -/
def mainLoop : Nat × List (List Char × List Char) → List DirModel →
    Nat × List (List Char × List Char)
  | acc, [] => acc
  | acc, d :: ds =>
    mainLoop
      (if d.exists_ then
        runFiles process_file
          (runFiles process_file (runFiles process_file acc d.testFiles) d.specFiles)
          d.storyFiles
      else acc) ds

/-- Model of comprehensive_fix.main: three rglob passes over each existing
root directory, counting files fixed and collecting the writes performed. -/
def main (dirs : List DirModel) : Nat × List (List Char × List Char) :=
  mainLoop (0, []) dirs

end ComprehensiveFix

namespace FixTsErrors

/-- Matcher for `\((\w+)\)\s*=>\s*(\w+)\.push\(\1\)` of
fix_ts_errors.fix_push_callbacks, with its block-body replacement; the
back-reference `\1` requires the pushed argument to repeat group 1. -/
def pushCbM : Matcher := fun s => do
  let s ← lit ("(".data) s
  let (g1, s) ← munch1 isWordChar s
  let s ← lit (")".data) s
  let (_, s) := munch isSpaceChar s
  let s ← lit ("=>".data) s
  let (_, s) := munch isSpaceChar s
  let (g2, s) ← munch1 isWordChar s
  let s ← lit (".push(".data) s
  let s ← lit g1 s
  let s ← lit (")".data) s
  some (("(".data) ++ g1 ++ (") => \x7b\n        ".data) ++ g2 ++ (".push(".data) ++ g1
        ++ (");\n      \x7d".data), s)

/-- Matcher for `\(\)\s*=>\s*(\w+)\+\+` of
fix_ts_errors.fix_increment_callbacks, with its block-body replacement. -/
def incCbM : Matcher := fun s => do
  let s ← lit ("()".data) s
  let (_, s) := munch isSpaceChar s
  let s ← lit ("=>".data) s
  let (_, s) := munch isSpaceChar s
  let (g, s) ← munch1 isWordChar s
  let s ← lit ("++".data) s
  some (("() => \x7b\n        ".data) ++ g ++ ("++;\n      \x7d".data), s)

/-- Model of fix_ts_errors.fix_push_callbacks. -/
def fix_push_callbacks (content : List Char) : List Char := subAll pushCbM content

/-- Model of fix_ts_errors.fix_increment_callbacks. -/
def fix_increment_callbacks (content : List Char) : List Char := subAll incCbM content

/-- Model of fix_ts_errors.fix_file.  The source has no try/except, so a read
or write failure propagates as an `Except.error`; on success the value is the
returned changed flag together with the content written (when the final
content differs from the original).  Only fix_push_callbacks and
fix_increment_callbacks are applied, in that order, as in the source. -/
def fix_file (readRes : Except (List Char) (List Char))
    (writeRes : Except (List Char) Unit) :
    Except (List Char) (Bool × Option (List Char)) :=
  match readRes with
  | .error e => .error e
  | .ok content =>
    let c := fix_increment_callbacks (fix_push_callbacks content)
    if c = content then .ok (false, none)
    else
      match writeRes with
      | .ok _ => .ok (true, some c)
      | .error e => .error e

end FixTsErrors

namespace FinalSafeFix

/-- Python str.strip on the ASCII whitespace model: drop leading and trailing
whitespace. -/
def pyStrip (s : List Char) : List Char :=
  ((s.dropWhile isSpaceChar).reverse.dropWhile isSpaceChar).reverse

/-- Python re.match of `\s*const _\w+ = ` against the start of a line
(step 1 of final_safe_fix.safe_fixes). -/
def matchDecl (l : List Char) : Bool :=
  let s := (munch isSpaceChar l).2
  match lit ("const _".data) s with
  | none => false
  | some s =>
    match munch1 isWordChar s with
    | none => false
    | some (_, s) => (lit (" = ".data) s).isSome

/-- Python content.split on a newline separator. -/
def splitLines : List Char → List (List Char)
  | [] => [[]]
  | c :: cs =>
    if c = '\n' then [] :: splitLines cs
    else
      match splitLines cs with
      | [] => [[c]]
      | l :: ls => (c :: l) :: ls

/-- Python newline-join of a list of lines. -/
def joinLines : List (List Char) → List Char
  | [] => []
  | [l] => l
  | l :: ls => l ++ '\n' :: joinLines ls

/-- The while-loop of safe_fixes step 1: a line matching the unused-binding
declaration pattern is dropped together with the immediately following line
when that following line strips to empty; otherwise every line is kept. -/
def removeUnusedLines : List (List Char) → List (List Char)
  | [] => []
  | [l] => [l]
  | l :: b :: rs =>
    if matchDecl l then
      if pyStrip b = [] then removeUnusedLines rs
      else l :: removeUnusedLines (b :: rs)
    else l :: removeUnusedLines (b :: rs)

/-- The ten property names of safe_fixes step 2. -/
def problematic_props : List (List Char) :=
  [("cpu".data), ("memory".data), ("sessionId".data), ("userId".data), ("tenantId".data),
   ("className".data), ("id".data), ("payload".data), ("source".data), ("timestamp".data)]

/-- Step 2 of safe_fixes: for each problematic property, rewrite the
metadata, data and props accesses, in that order. -/
def safeStep2 (c : List Char) : List Char :=
  problematic_props.foldl
    (fun c prop =>
      let c := subAll (propAccessM ("metadata".data) prop) c
      let c := subAll (propAccessM ("data".data) prop) c
      subAll (propAccessM ("props".data) prop) c)
    c

/-- Matcher for `chart\.selectDataPoint\(mockData\.find\(([^)]+)\)\)` of
safe_fixes step 3, replacement `chart.selectDataPoint(mockData.find(\1)!)`. -/
def chartSelectM : Matcher := fun s => do
  let s ← lit ("chart.selectDataPoint(mockData.find(".data) s
  let (g, s) ← munch1 (fun c => c != ')') s
  let s ← lit ("))".data) s
  some (("chart.selectDataPoint(mockData.find(".data) ++ g ++ (")!)".data), s)

/-- Matcher for `chart\.hoverDataPoint\(mockData\.find\(([^)]+)\)\)` of
safe_fixes step 3, replacement `chart.hoverDataPoint(mockData.find(\1)!)`. -/
def chartHoverM : Matcher := fun s => do
  let s ← lit ("chart.hoverDataPoint(mockData.find(".data) s
  let (g, s) ← munch1 (fun c => c != ')') s
  let s ← lit ("))".data) s
  some (("chart.hoverDataPoint(mockData.find(".data) ++ g ++ (")!)".data), s)

/-- Matcher for `(\w+)\s+as\s+\{\s*props:\s*\{` of safe_fixes step 4, with a
replacement normalising the matched text to single spaces. -/
def asPropsM : Matcher := fun s => do
  let (g, s) ← munch1 isWordChar s
  let (_, s) ← munch1 isSpaceChar s
  let s ← lit ("as".data) s
  let (_, s) ← munch1 isSpaceChar s
  let s ← lit ("\x7b".data) s
  let (_, s) := munch isSpaceChar s
  let s ← lit ("props:".data) s
  let (_, s) := munch isSpaceChar s
  let s ← lit ("\x7b".data) s
  some (g ++ (" as unknown as \x7b props: \x7b".data), s)

/-- Matcher for `cell\.payload\.(\w+)` of safe_fixes step 5. -/
def cellPayloadM : Matcher := fun s => do
  let s ← lit ("cell.payload.".data) s
  let (g, s) ← munch1 isWordChar s
  some (("(cell.payload as any).".data) ++ g, s)

/-- Matcher for `request\.payload\.(\w+)` of safe_fixes step 5. -/
def requestPayloadM : Matcher := fun s => do
  let s ← lit ("request.payload.".data) s
  let (g, s) ← munch1 isWordChar s
  some (("(request.payload as any).".data) ++ g, s)

/-- Matcher for `msg1?\.payload\.(\w+)` of safe_fixes step 5: the regex makes
the digit 1 optional (so it also matches a bare msg), while the replacement
always writes msg1. -/
def msg1PayloadM : Matcher := fun s => do
  let s ← lit ("msg".data) s
  let s ←
    match lit ("1.payload.".data) s with
    | some s1 => some s1
    | none => lit (".payload.".data) s
  let (g, s) ← munch1 isWordChar s
  some (("(msg1.payload as any).".data) ++ g, s)

/-- Matcher for `msg2\.payload\.(\w+)` of safe_fixes step 5. -/
def msg2PayloadM : Matcher := fun s => do
  let s ← lit ("msg2.payload.".data) s
  let (g, s) ← munch1 isWordChar s
  some (("(msg2.payload as any).".data) ++ g, s)

/-- Model of final_safe_fix.safe_fixes: the six steps in source order; the
filepath parameter is received and never used, as in the source. -/
def safe_fixes (content : List Char) (filepath : List Char) : List Char :=
  let c := joinLines (removeUnusedLines (splitLines content))
  let c := safeStep2 c
  let c := subAll chartSelectM c
  let c := subAll chartHoverM c
  let c := subAll asPropsM c
  let c := subAll cellPayloadM c
  let c := subAll requestPayloadM c
  let c := subAll msg1PayloadM c
  let c := subAll msg2PayloadM c
  subAll (indexedAccessM ("sliceAngles".data)) c

/-- Model of final_safe_fix.process_file (same try/except shape as
comprehensive_fix.process_file). -/
def process_file (filepath : List Char) (readRes : Except (List Char) (List Char))
    (writeRes : Except (List Char) Unit) : PFResult :=
  match readRes with
  | .error e => ⟨false, none, some (filepath, e)⟩
  | .ok content =>
    let c := safe_fixes content filepath
    if c = content then ⟨false, none, none⟩
    else
      match writeRes with
      | .ok _ => ⟨true, some c, none⟩
      | .error e => ⟨false, none, some (filepath, e)⟩

end FinalSafeFix

namespace UltraTargetedFix

/-- Matcher for rule 1 of ultra_targeted_fixes, the literal rewrite
`vdom\.children\[` to `vdom.children?.[`. -/
def vdomChildrenM : Matcher := fun s => do
  let s ← lit ("vdom.children[".data) s
  some (("vdom.children?.[".data), s)

/-- Matcher for rule 3 of ultra_targeted_fixes,
`chart\.(selectDataPoint|hoverDataPoint|clickDataPoint)\(([^!]+)\)`: the
greedy group of non-exclamation characters backtracks so that the final
consumed character is the last closing parenthesis of the run, and the
group must be nonempty before it. -/
def chartBangM : Matcher := fun s => do
  let s ← lit ("chart.".data) s
  let (name, s) ←
    match lit ("selectDataPoint".data) s with
    | some s1 => some (("selectDataPoint".data), s1)
    | none =>
      match lit ("hoverDataPoint".data) s with
      | some s1 => some (("hoverDataPoint".data), s1)
      | none =>
        match lit ("clickDataPoint".data) s with
        | some s1 => some (("clickDataPoint".data), s1)
        | none => none
  let s ← lit ("(".data) s
  let (run, rest) := munch (fun c => c != '!') s
  let (g, after) ← splitAtLast ')' run
  if g = [] then none
  else some (("chart.".data) ++ name ++ ("(".data) ++ g ++ ("!)".data), after ++ rest)

/-- Matcher for the first literal rewrite of ultra rule 5,
`expect\(s\)\.toBe` to `expect(s as any).toBe`. -/
def expectSM : Matcher := fun s => do
  let s ← lit ("expect(s).toBe".data) s
  some (("expect(s as any).toBe".data), s)

/-- Matcher for the second literal rewrite of ultra rule 5,
`expect\(signal\)\.toBe\(` to `expect(signal as any).toBe(`. -/
def expectSignalM : Matcher := fun s => do
  let s ← lit ("expect(signal).toBe(".data) s
  some (("expect(signal as any).toBe(".data), s)

/-- Matcher for ultra rule 6 on mockData,
`mockData\.find\(d => d\.x === (\d+)\)\)`, replacement
`mockData.find(d => d.x === \1)!)`. -/
def mockDataFindM : Matcher := fun s => do
  let s ← lit ("mockData.find(d => d.x === ".data) s
  let (d, s) ← munch1 Char.isDigit s
  let s ← lit ("))".data) s
  some (("mockData.find(d => d.x === ".data) ++ d ++ (")!)".data), s)

/-- Matcher for ultra rule 6 on mockPieData, a label-comparison find call
with a single-quoted label captured between the quotes. -/
def mockPieDataFindM : Matcher := fun s => do
  let s ← lit (("mockPieData.find(d => d.label === ".data) ++ [squote]) s
  let (g, s) ← munch1 (fun c => c != squote) s
  let s ← lit ([squote] ++ ("))".data)) s
  some (("mockPieData.find(d => d.label === ".data) ++ [squote] ++ g ++ [squote] ++ (")!)".data), s)

/-- Model of ultra_targeted_fix.ultra_targeted_fixes: the rules in source
order (rule 2 and rule 4 reuse the shared pattern families). -/
def ultra_targeted_fixes (content : List Char) : List Char :=
  let c := subAll vdomChildrenM content
  let c := subAll (propAccessM ("props".data) ("className".data)) c
  let c := subAll chartBangM c
  let c := subAll (indexedAccessM ("interactions".data)) c
  let c := subAll (indexedAccessM ("events".data)) c
  let c := subAll (indexedAccessM ("bars".data)) c
  let c := subAll expectSM c
  let c := subAll expectSignalM c
  let c := subAll mockDataFindM c
  subAll mockPieDataFindM c

/-- Model of ultra_targeted_fix.process_file (same try/except shape as
comprehensive_fix.process_file; the fix function takes only the content). -/
def process_file (filepath : List Char) (readRes : Except (List Char) (List Char))
    (writeRes : Except (List Char) Unit) : PFResult :=
  match readRes with
  | .error e => ⟨false, none, some (filepath, e)⟩
  | .ok content =>
    let c := ultra_targeted_fixes content
    if c = content then ⟨false, none, none⟩
    else
      match writeRes with
      | .ok _ => ⟨true, some c, none⟩
      | .error e => ⟨false, none, some (filepath, e)⟩

end UltraTargetedFix

namespace FinalPush

/-- Matcher for rule 3 of final_push.final_fixes, `<([^,>]+), TInput>`,
replacement `<\1, any>`. -/
def tInputM : Matcher := fun s => do
  let s ← lit ("<".data) s
  let (g, s) ← munch1 (fun c => c != ',' && c != '>') s
  let s ← lit (", TInput>".data) s
  some (("<".data) ++ g ++ (", any>".data), s)

/-- Matcher for rule 4 of final_push.final_fixes,
`sliceAngles\[(\d+)\]([^?])`, replacement `sliceAngles[\1]!\2`: group 2 is a
single arbitrary character other than a question mark. -/
def sliceAnglesBangM : Matcher := fun s => do
  let s ← lit ("sliceAngles[".data) s
  let (d, s) ← munch1 Char.isDigit s
  let s ← lit ("]".data) s
  match s with
  | [] => none
  | c :: cs =>
    if c = '?' then none
    else some (("sliceAngles[".data) ++ d ++ ("]!".data) ++ [c], cs)

/-- Model of final_push.final_fixes: the four rules in source order. -/
def final_fixes (content : List Char) : List Char :=
  let c := subAll (propAccessM ("props".data) ("data".data)) content
  let c := subAll (indexedAccessM ("container.children".data)) c
  let c := subAll tInputM c
  subAll sliceAnglesBangM c

/-- Model of final_push.process_file (same try/except shape as
comprehensive_fix.process_file; the fix function takes only the content). -/
def process_file (filepath : List Char) (readRes : Except (List Char) (List Char))
    (writeRes : Except (List Char) Unit) : PFResult :=
  match readRes with
  | .error e => ⟨false, none, some (filepath, e)⟩
  | .ok content =>
    let c := final_fixes content
    if c = content then ⟨false, none, none⟩
    else
      match writeRes with
      | .ok _ => ⟨true, some c, none⟩
      | .error e => ⟨false, none, some (filepath, e)⟩

/-- Model of final_push.main over the files of its single rglob pass.  A
missing or empty root directory yields no files: pathlib's rglob of an
absent directory iterates nothing rather than raising. -/
def main (files : List FileM) : Nat × List (List Char × List Char) :=
  runFiles process_file (0, []) files

end FinalPush

/-- C1: for every file whose content matches none of the rules' patterns,
one run of the engine (comprehensive_fix.process_file, or
fix_ts_errors.fix_file) leaves the content unchanged, performs no write,
reports no error, returns False, and contributes nothing to the files-fixed
count of the main loop. -/
theorem c1_unmatched_content_unchanged (s p : List Char) (w : Except (List Char) Unit)
    (h1 : matchesSomewhere ComprehensiveFix.rule1M s = false)
    (h2 : matchesSomewhere ComprehensiveFix.rule2M s = false)
    (h4 : matchesSomewhere ComprehensiveFix.rule4M s = false)
    (h5 : matchesSomewhere ComprehensiveFix.rule5M s = false)
    (h6 : matchesSomewhere ComprehensiveFix.rule6M s = false)
    (h7 : matchesSomewhere FixTsErrors.pushCbM s = false)
    (h8 : matchesSomewhere FixTsErrors.incCbM s = false) :
    ComprehensiveFix.fix_content s p = s ∧
    ComprehensiveFix.process_file p (.ok s) w = ⟨false, none, none⟩ ∧
    FixTsErrors.fix_file (.ok s) w = .ok (false, none) ∧
    ∀ acc rest, runFiles ComprehensiveFix.process_file acc (⟨p, .ok s, w⟩ :: rest) =
      runFiles ComprehensiveFix.process_file acc rest := by
  have hfix : ComprehensiveFix.fix_content s p = s := by
    show subAll ComprehensiveFix.rule6M (subAll ComprehensiveFix.rule5M
      (subAll ComprehensiveFix.rule4M (subAll ComprehensiveFix.rule2M
        (subAll ComprehensiveFix.rule1M s)))) = s
    rw [subAll_id_of_no_match _ _ h1, subAll_id_of_no_match _ _ h2,
        subAll_id_of_no_match _ _ h4, subAll_id_of_no_match _ _ h5,
        subAll_id_of_no_match _ _ h6]
  have hts : FixTsErrors.fix_increment_callbacks (FixTsErrors.fix_push_callbacks s) = s := by
    show subAll FixTsErrors.incCbM (subAll FixTsErrors.pushCbM s) = s
    rw [subAll_id_of_no_match _ _ h7, subAll_id_of_no_match _ _ h8]
  refine ⟨hfix, ?_, ?_, ?_⟩
  · simp [ComprehensiveFix.process_file, hfix]
  · simp [FixTsErrors.fix_file, hts]
  · intro acc rest
    simp [runFiles, ComprehensiveFix.process_file, hfix]

/-- Witness for C1 at the concrete content hello world, matched by no rule. -/
theorem c1_unmatched_content_unchanged_witness :
    ComprehensiveFix.fix_content ("hello world".data) ("p".data) = ("hello world".data) ∧
    ComprehensiveFix.process_file ("p".data) (.ok ("hello world".data)) (.ok ()) =
      ⟨false, none, none⟩ ∧
    FixTsErrors.fix_file (.ok ("hello world".data)) (.ok ()) = .ok (false, none) := by
  have h := c1_unmatched_content_unchanged ("hello world".data) ("p".data) (.ok ())
    (by decide) (by decide) (by decide) (by decide) (by decide) (by decide) (by decide)
  exact ⟨h.1, h.2.1, h.2.2.1⟩

/-- C2 counterexample: the null-argument-assertion rule of
comprehensive_fix (rule 6 of fix_content, one of the claim's cited rules)
does not yield the claimed output on the scenario input: it replaces the
find predicate by the literal dots instead of preserving it. -/
theorem c2_comprehensive_find_rule_discards_predicate :
    subAll ComprehensiveFix.rule6M
        ("chart.selectDataPoint(mockData.find(d => d.x === 3))".data) ≠
      ("chart.selectDataPoint(mockData.find(d => d.x === 3)!)".data) := by decide

/-- C2 amended: on the input chart.selectDataPoint(mockData.find(d => d.x === 3)),
the targeted null-argument-assertion rules of ultra_targeted_fix and
final_safe_fix (and those scripts' full rule sets) yield exactly
chart.selectDataPoint(mockData.find(d => d.x === 3)!), a single exclamation
mark inserted with the predicate preserved verbatim; the find rule of
comprehensive_fix instead yields chart.selectDataPoint(mockData.find(...)!),
discarding the predicate. -/
theorem c2_null_assertion_rules_on_scenario :
    subAll UltraTargetedFix.mockDataFindM
        ("chart.selectDataPoint(mockData.find(d => d.x === 3))".data) =
      ("chart.selectDataPoint(mockData.find(d => d.x === 3)!)".data) ∧
    subAll FinalSafeFix.chartSelectM
        ("chart.selectDataPoint(mockData.find(d => d.x === 3))".data) =
      ("chart.selectDataPoint(mockData.find(d => d.x === 3)!)".data) ∧
    UltraTargetedFix.ultra_targeted_fixes
        ("chart.selectDataPoint(mockData.find(d => d.x === 3))".data) =
      ("chart.selectDataPoint(mockData.find(d => d.x === 3)!)".data) ∧
    FinalSafeFix.safe_fixes
        ("chart.selectDataPoint(mockData.find(d => d.x === 3))".data) ("p".data) =
      ("chart.selectDataPoint(mockData.find(d => d.x === 3)!)".data) ∧
    subAll ComprehensiveFix.rule6M
        ("chart.selectDataPoint(mockData.find(d => d.x === 3))".data) =
      ("chart.selectDataPoint(mockData.find(...)!)".data) ∧
    ComprehensiveFix.fix_content
        ("chart.selectDataPoint(mockData.find(d => d.x === 3))".data) ("p".data) =
      ("chart.selectDataPoint(mockData.find(...)!)".data) := by decide

/-- C3 counterexample: fix_ts_errors.fix_file has no try/except, so a read
error propagates out of the per-file processing instead of being caught and
turned into a False return. -/
theorem c3_fix_ts_errors_propagates_error :
    FixTsErrors.fix_file (.error ("boom".data)) (.ok ()) = .error ("boom".data) ∧
    FixTsErrors.fix_file (.error ("boom".data)) (.ok ()) ≠ .ok (false, none) :=
  ⟨rfl, fun h => Except.noConfusion h⟩

/-- C3 amended: in comprehensive_fix, final_safe_fix, ultra_targeted_fix and
final_push, the per-file processing catches a read or write error, reports
the file path and message, returns False with no write recorded, and the
main loop continues over the remaining files with its accumulator unchanged;
fix_ts_errors.fix_file, by contrast, propagates the error (see the
counterexample). -/
theorem c3_catching_scripts_report_and_continue
    (p c e : List Char) (w : Except (List Char) Unit)
    (acc : Nat × List (List Char × List Char)) (rest : List FileM) :
    ComprehensiveFix.process_file p (.error e) w = ⟨false, none, some (p, e)⟩ ∧
    FinalSafeFix.process_file p (.error e) w = ⟨false, none, some (p, e)⟩ ∧
    UltraTargetedFix.process_file p (.error e) w = ⟨false, none, some (p, e)⟩ ∧
    FinalPush.process_file p (.error e) w = ⟨false, none, some (p, e)⟩ ∧
    ComprehensiveFix.process_file p (.ok c) (.error e) =
      (if ComprehensiveFix.fix_content c p = c then ⟨false, none, none⟩
       else ⟨false, none, some (p, e)⟩) ∧
    FinalSafeFix.process_file p (.ok c) (.error e) =
      (if FinalSafeFix.safe_fixes c p = c then ⟨false, none, none⟩
       else ⟨false, none, some (p, e)⟩) ∧
    runFiles ComprehensiveFix.process_file acc (⟨p, .error e, w⟩ :: rest) =
      runFiles ComprehensiveFix.process_file acc rest := by
  refine ⟨rfl, rfl, rfl, rfl, ?_, ?_, ?_⟩
  · simp only [ComprehensiveFix.process_file]
  · simp only [FinalSafeFix.process_file]
  · simp [runFiles, ComprehensiveFix.process_file]

/-- C4 counterexample: running comprehensive_fix.fix_content twice on
a[0].b[1].c differs from running it once, although no rule's replacement
text can be matched by that rule's own pattern on this input: the first run
rewrites a[0].b and consumes b as a capture, and only the second run can
rewrite b[1].c. -/
theorem c4_double_run_differs_from_single :
    ComprehensiveFix.fix_content
        (ComprehensiveFix.fix_content ("a[0].b[1].c".data) ("p".data)) ("p".data) ≠
      ComprehensiveFix.fix_content ("a[0].b[1].c".data) ("p".data) := by decide

/-- C4 amended: running the full rule set twice does not in general yield the
content of a single run, even for rules whose replacement cannot be matched
by their own pattern (a substitution can expose a fresh match adjacent to a
replaced span — see the counterexample); on each of the spec's concrete
scenario inputs, a second run of comprehensive_fix.fix_content does leave
the first run's output unchanged. -/
theorem c4_idempotent_on_spec_scenarios :
    ComprehensiveFix.fix_content
        (ComprehensiveFix.fix_content ("items[0].value".data) ("p".data)) ("p".data) =
      ComprehensiveFix.fix_content ("items[0].value".data) ("p".data) ∧
    ComprehensiveFix.fix_content
        (ComprehensiveFix.fix_content
          ("chart.selectDataPoint(mockData.find(d => d.x === 3))".data) ("p".data)) ("p".data) =
      ComprehensiveFix.fix_content
        ("chart.selectDataPoint(mockData.find(d => d.x === 3))".data) ("p".data) ∧
    ComprehensiveFix.fix_content
        (ComprehensiveFix.fix_content ("const _unused = compute();\n\n".data) ("p".data)) ("p".data) =
      ComprehensiveFix.fix_content ("const _unused = compute();\n\n".data) ("p".data) := by decide

/-- C5: on the input const _unused = compute(); followed by a blank line,
the remove-unused-underscore-binding rules delete the declaration together
with the following blank line: comprehensive_fix's rule 1 matches the whole
declaration-plus-blank span and collapses it to a single newline, and
final_safe_fix's line-based step removes both lines, leaving the empty
content (one remaining empty line in the line list). -/
theorem c5_unused_binding_and_blank_line_removed :
    subAll ComprehensiveFix.rule1M ("const _unused = compute();\n\n".data) = ("\n".data) ∧
    ComprehensiveFix.fix_content ("const _unused = compute();\n\n".data) ("p".data) =
      ("\n".data) ∧
    FinalSafeFix.safe_fixes ("const _unused = compute();\n\n".data) ("p".data) = [] ∧
    FinalSafeFix.removeUnusedLines
        (FinalSafeFix.splitLines ("const _unused = compute();\n\n".data)) = [[]] := by decide

/-- C6: per-file processing applies every rule in the configured order to
the whole in-memory text — fix_content is exactly the ordered composition of
its five rules, fix_file the ordered composition of its two fix functions —
and with read and write succeeding it writes the file back if and only if
the final content differs from the original, reporting changed exactly in
that case. -/
theorem c6_apply_rules_in_order_write_iff_changed (p c : List Char) :
    ComprehensiveFix.fix_content c p =
      subAll ComprehensiveFix.rule6M (subAll ComprehensiveFix.rule5M
        (subAll ComprehensiveFix.rule4M (subAll ComprehensiveFix.rule2M
          (subAll ComprehensiveFix.rule1M c)))) ∧
    ComprehensiveFix.process_file p (.ok c) (.ok ()) =
      (if ComprehensiveFix.fix_content c p = c then ⟨false, none, none⟩
       else ⟨true, some (ComprehensiveFix.fix_content c p), none⟩) ∧
    FixTsErrors.fix_file (.ok c) (.ok ()) =
      (if FixTsErrors.fix_increment_callbacks (FixTsErrors.fix_push_callbacks c) = c
       then .ok (false, none)
       else .ok (true, some (FixTsErrors.fix_increment_callbacks
         (FixTsErrors.fix_push_callbacks c)))) := by
  refine ⟨rfl, ?_, ?_⟩
  · simp only [ComprehensiveFix.process_file]
  · simp only [FixTsErrors.fix_file]

/-- C7: the per-file transformation is deterministic and independent of the
filepath parameter: fix_content and safe_fixes give equal outputs for any
two filepath arguments, and the changed flag and written content of
process_file agree for any two filepath arguments on the same read and
write outcomes. -/
theorem c7_deterministic_and_filepath_independent (c p1 p2 : List Char)
    (r : Except (List Char) (List Char)) (w : Except (List Char) Unit) :
    ComprehensiveFix.fix_content c p1 = ComprehensiveFix.fix_content c p2 ∧
    FinalSafeFix.safe_fixes c p1 = FinalSafeFix.safe_fixes c p2 ∧
    (ComprehensiveFix.process_file p1 r w).changed =
      (ComprehensiveFix.process_file p2 r w).changed ∧
    (ComprehensiveFix.process_file p1 r w).written =
      (ComprehensiveFix.process_file p2 r w).written ∧
    (FinalSafeFix.process_file p1 r w).changed =
      (FinalSafeFix.process_file p2 r w).changed ∧
    (FinalSafeFix.process_file p1 r w).written =
      (FinalSafeFix.process_file p2 r w).written := by
  have hcomp : ∀ a : List Char,
      ComprehensiveFix.fix_content a p2 = ComprehensiveFix.fix_content a p1 := fun _ => rfl
  have hsafe : ∀ a : List Char,
      FinalSafeFix.safe_fixes a p2 = FinalSafeFix.safe_fixes a p1 := fun _ => rfl
  refine ⟨rfl, rfl, ?_, ?_, ?_, ?_⟩ <;>
    cases r <;> cases w <;>
      simp only [ComprehensiveFix.process_file, FinalSafeFix.process_file, hcomp, hsafe,
        apply_ite PFResult.changed, apply_ite PFResult.written, ite_self]

/-- C8: on the input items[0].value, the indexed-access rule of
comprehensive_fix rewrites the single occurrence to optional chaining,
yielding exactly items[0]?.value, and the full rule set does the same. -/
theorem c8_indexed_access_optional_chaining :
    subAll ComprehensiveFix.rule2M ("items[0].value".data) = ("items[0]?.value".data) ∧
    ComprehensiveFix.fix_content ("items[0].value".data) ("p".data) =
      ("items[0]?.value".data) := by decide

/-- C9: a run of comprehensive_fix.main over roots that are missing or hold
no matching files changes zero files and performs no write, and likewise a
run of final_push.main over no discovered files (pathlib rglob of a missing
or empty root yields nothing). -/
theorem c9_empty_or_missing_roots_zero_fixed (dirs : List ComprehensiveFix.DirModel)
    (h : ∀ d ∈ dirs, d.exists_ = false ∨
      (d.testFiles = [] ∧ d.specFiles = [] ∧ d.storyFiles = [])) :
    ComprehensiveFix.main dirs = (0, []) ∧ FinalPush.main [] = (0, []) := by
  refine ⟨?_, rfl⟩
  have key : ∀ (ds : List ComprehensiveFix.DirModel),
      (∀ d ∈ ds, d.exists_ = false ∨
        (d.testFiles = [] ∧ d.specFiles = [] ∧ d.storyFiles = [])) →
      ∀ acc, ComprehensiveFix.mainLoop acc ds = acc := by
    intro ds
    induction ds with
    | nil => intro _ _; rfl
    | cons d ds ih =>
      intro hds acc
      have hd := hds d (List.mem_cons_self d ds)
      have hrest : ∀ x ∈ ds, x.exists_ = false ∨
          (x.testFiles = [] ∧ x.specFiles = [] ∧ x.storyFiles = []) :=
        fun x hx => hds x (List.mem_cons_of_mem d hx)
      rcases hd with hd | ⟨ht, hs, hst⟩
      · simp [ComprehensiveFix.mainLoop, hd, ih hrest]
      · simp [ComprehensiveFix.mainLoop, ht, hs, hst, runFiles, ih hrest]
  exact key dirs h (0, [])

/-- Witness for C9: one missing root holding a file and one existing empty
root give zero files fixed and no writes. -/
theorem c9_empty_or_missing_roots_zero_fixed_witness :
    ComprehensiveFix.main
        [⟨false, [⟨("a.test.ts".data), .ok ("items[0].value".data), .ok ()⟩], [], []⟩,
         ⟨true, [], [], []⟩] = (0, []) ∧
    FinalPush.main [] = (0, []) := by
  refine c9_empty_or_missing_roots_zero_fixed _ ?_
  intro d hd
  rcases List.mem_cons.mp hd with rfl | hd
  · exact Or.inl rfl
  rcases List.mem_cons.mp hd with rfl | hd
  · exact Or.inr ⟨rfl, rfl, rfl⟩
  · exact absurd hd (List.not_mem_nil d)

/-- C10: in the line-based unused-binding removal of final_safe_fix, a line
matching the declaration pattern is deleted (together with the next line)
only when the immediately following line strips to blank; a matching
declaration followed by a non-blank line, or standing as the last line, is
kept verbatim in the output. -/
theorem c10_removal_only_when_next_line_blank (l : List Char)
    (h : FinalSafeFix.matchDecl l = true) :
    FinalSafeFix.removeUnusedLines [l] = [l] ∧
    (∀ b rs, FinalSafeFix.pyStrip b ≠ [] →
      FinalSafeFix.removeUnusedLines (l :: b :: rs) =
        l :: FinalSafeFix.removeUnusedLines (b :: rs)) ∧
    (∀ b rs, FinalSafeFix.pyStrip b = [] →
      FinalSafeFix.removeUnusedLines (l :: b :: rs) = FinalSafeFix.removeUnusedLines rs) := by
  refine ⟨rfl, ?_, ?_⟩ <;> intro b rs hb <;>
    simp [FinalSafeFix.removeUnusedLines, h, hb]

/-- Witness for C10 at a concrete declaration line: kept before a non-blank
line, removed together with a blank line. -/
theorem c10_removal_only_when_next_line_blank_witness :
    FinalSafeFix.removeUnusedLines [("const _a = 1;".data), ("x = 2;".data)] =
      [("const _a = 1;".data), ("x = 2;".data)] ∧
    FinalSafeFix.removeUnusedLines
        [("const _a = 1;".data), ("  ".data), ("x".data)] = [("x".data)] := by
  have h := c10_removal_only_when_next_line_blank ("const _a = 1;".data) (by decide)
  constructor
  · rw [h.2.1 ("x = 2;".data) [] (by decide)]
    rfl
  · rw [h.2.2 ("  ".data) [("x".data)] (by decide)]
    rfl
